import Mathlib

/-!
Verification of the riseworks batcher pipeline.

Shallow embedding of the CSV-to-payment pipeline and the batch-payment
orchestration (`src/datasource.py`, `src/rise_client.py`, `src/main.py`).
Python `sys.exit(1)` error paths are modelled with `Except String`;
Python `float` is modelled as IEEE-754 binary64: `float(str)` parses the
accepted syntax (whitespace, sign, underscores between digits,
`inf`/`infinity`/`nan`) and rounds the decimal value to the nearest
double (round-to-nearest-even, with subnormals and overflow to
infinity), multiplication by `10 ** 6` re-rounds the exact product, and
`int()` truncates toward zero, raising its own conversion errors on
infinities and NaN; `random.getrandbits(32)` is modelled as an abstract
entropy draw reduced modulo `2 ^ 32`.
-/

namespace RiseBatcher

set_option maxRecDepth 10000

deriving instance DecidableEq for Except

/-- `USDC_DECIMALS` from `src/rise_client.py`. -/
def USDC_DECIMALS : Nat := 6

/-- The `Payment` dataclass of `src/rise_client.py`: recipient `RiseId`
string, amount in USDC wei, and the salt set by `__post_init__`. -/
structure Payment where
  recipient : String
  amount : Int
  salt : Nat
deriving DecidableEq

/-- `random.getrandbits(32)`: an abstract entropy draw reduced to 32 bits. -/
def getrandbits32 (e : Nat) : Nat := e % 2 ^ 32

/-- Construction of a `Payment`: the dataclass accepts an optional `salt`
argument, but `__post_init__` unconditionally overwrites it with
`random.getrandbits(32)` (modelled by the entropy draw `e`), so `saltArg`
is dead on arrival exactly as in the source. -/
def mkPayment (recipient : String) (amount : Int) (_saltArg : Option Nat)
    (e : Nat) : Payment :=
  { recipient := recipient, amount := amount, salt := getrandbits32 e }

/-- A hexadecimal digit, the character class `[0-9a-fA-F]`. -/
def isHexDigitChar (c : Char) : Bool :=
  c.isDigit || (decide ('a' ≤ c) && decide (c ≤ 'f'))
    || (decide ('A' ≤ c) && decide (c ≤ 'F'))

/-- Left-to-right non-overlapping scan of `re.findall(r"0x[0-9a-fA-F]\x7b40\x7d")`,
keeping the start index of each match.  `fuel` bounds the recursion; one
unit of fuel is spent per scan position, so `fuel = cs.length` is enough. -/
def riseScan : Nat → Nat → List Char → List (Nat × List Char)
  | 0, _, _ => []
  | _ + 1, _, [] => []
  | fuel + 1, i, c :: cs =>
    if c = '0' ∧ cs.take 1 = ['x'] ∧ 41 ≤ cs.length
        ∧ ((cs.drop 1).take 40).all isHexDigitChar = true then
      (i, c :: cs.take 41) :: riseScan fuel (i + 42) (cs.drop 41)
    else
      riseScan fuel (i + 1) cs

/-- Matches of the RiseId pattern, with start indices. -/
def riseMatchesP (cs : List Char) : List (Nat × List Char) :=
  riseScan cs.length 0 cs

/-- `re.findall(r"0x[0-9a-fA-F]\x7b40\x7d", text)`: the matched substrings. -/
def riseMatches (cs : List Char) : List (List Char) :=
  (riseMatchesP cs).map Prod.snd

/-- `find_rise_id` from `src/datasource.py`: exactly one pattern match is
required; `matches.pop()` on a singleton list returns its only element. -/
def find_rise_id (text : String) : Except String String :=
  match riseMatches text.toList with
  | [] => .error ("RiseId not found in [bold]" ++ text ++ "[/bold]")
  | [m] => .ok m.asString
  | _ :: _ :: _ => .error ("Multiple RiseIds found in [bold]" ++ text ++ "[/bold]")

/-- Sign parsing for a decimal literal: an optional leading `+` or `-`. -/
def parseSign : List Char → Int × List Char
  | '+' :: cs => (1, cs)
  | '-' :: cs => (-1, cs)
  | cs => (1, cs)

/-- Value of a digit string, most significant digit first. -/
def digitsToNat (ds : List Char) : Nat :=
  ds.foldl (fun a c => a * 10 + (c.toNat - 48)) 0

/-- A Python float: an IEEE-754 binary64 value.  A `finite m e` holds the
exact value `m * 2 ^ e`; rounding keeps `|m| < 2 ^ 53` and `e ≥ -1074`. -/
inductive PyFloat where
  | finite (m : Int) (e : Int)
  | inf (neg : Bool)
  | nan
deriving DecidableEq

/-- Negation of a float. -/
def PyFloat.neg : PyFloat → PyFloat
  | .finite m e => .finite (-m) e
  | .inf b => .inf (!b)
  | .nan => .nan

/-- Number of binary digits of `n` (`0` for `0`).  The fuel only bounds
the number of halvings, so `fuel = n` is always enough. -/
def bitsAux : Nat → Nat → Nat
  | 0, _ => 0
  | fuel + 1, n => if n = 0 then 0 else bitsAux fuel (n / 2) + 1

/-- `bits n` is the bit length of `n`. -/
def bits (n : Nat) : Nat := bitsAux n n

/-- Is `a / d ≥ 2 ^ e`, for naturals `a`, `d` and a signed exponent? -/
def gePow2 (a d : Nat) (e : Int) : Bool :=
  d * 2 ^ e.toNat ≤ a * 2 ^ (-e).toNat

/-- Classify a rounded significand-quantum pair: overflow past `2 ^ 1024`
(quantum `≥ 2 ^ 972` with a full significand) becomes infinity. -/
def mkFloat (m : Nat) (q : Int) : PyFloat :=
  if 972 ≤ q then .inf false else .finite (m : Int) q

/-- Round the positive rational `a / d` (`a, d ≥ 1`) to the nearest
binary64 value, ties to even: locate the binade, pick the quantum
(`2 ^ (e - 52)` for normal values, `2 ^ (-1074)` for subnormal ones),
round the integer significand half-to-even with carry, and overflow to
infinity at `2 ^ 1024`. -/
def roundPos (a d : Nat) : PyFloat :=
  let e0 : Int := (bits a : Int) - (bits d : Int)
  let e : Int := if gePow2 a d e0 then e0 else e0 - 1
  let q : Int := if -1022 ≤ e then e - 52 else -1074
  let N := a * 2 ^ (-q).toNat
  let D := d * 2 ^ q.toNat
  let m0 := N / D
  let r := N % D
  let m1 := if 2 * r < D then m0
    else if D < 2 * r then m0 + 1
    else if m0 % 2 = 0 then m0 else m0 + 1
  let p : Nat × Int := if m1 = 2 ^ 53 then (2 ^ 52, q + 1) else (m1, q)
  mkFloat p.1 p.2

/-- The binary64 value nearest to `sgn * mant * 10 ^ exp`, where `mant`
has at most `len` decimal digits.  The two range guards divert clearly
overflowing (`≥ 10 ^ 400 > 2 ^ 1024`) and clearly vanishing
(`< 10 ^ (-400) < 2 ^ (-1075)`) magnitudes before any large power of ten
is built. -/
def doubleOfDec (sgn : Int) (mant : Nat) (len : Nat) (exp : Int) : PyFloat :=
  if mant = 0 then .finite 0 0
  else if 400 ≤ exp then .inf (decide (sgn < 0))
  else if exp + (len : Int) ≤ -400 then .finite 0 0
  else
    let f := if 0 ≤ exp then roundPos (mant * 10 ^ exp.toNat) 1
      else roundPos mant (10 ^ (-exp).toNat)
    if sgn < 0 then f.neg else f

/-- The whitespace stripped by `float(str)`. -/
def isPySpace (c : Char) : Bool :=
  c = ' ' || c = '\t' || c = '\n' || c = '\x0b' || c = '\x0c' || c = '\r'

/-- Strip leading and trailing whitespace. -/
def pyStrip (cs : List Char) : List Char :=
  ((cs.dropWhile isPySpace).reverse.dropWhile isPySpace).reverse

/-- A character of a digit run: a digit or an underscore separator. -/
def isDigitOrUS (c : Char) : Bool := c.isDigit || c = '_'

/-- Two adjacent underscores somewhere in a run? -/
def hasDoubleUS : List Char → Bool
  | '_' :: '_' :: _ => true
  | _ :: rest => hasDoubleUS rest
  | [] => false

/-- A legal digit run: nonempty, with underscores only singly and between
digits. -/
def validRun (ds : List Char) : Bool :=
  !ds.isEmpty && !(ds.head? == some '_') && !(ds.getLast? == some '_')
    && !hasDoubleUS ds

/-- Drop the underscore separators of a digit run. -/
def stripUS (ds : List Char) : List Char := ds.filter (fun c => c != '_')

/-- Python `float(s)` on a string: strip whitespace, optional sign, then
`inf`/`infinity`/`nan` (case-insensitive) or a decimal literal
`digits [. digits] [(e|E) sign digits]` with at least one mantissa digit,
whose digit runs may contain single underscores between digits; the
value is rounded to the nearest binary64.  `none` models the
`ValueError` raised on any other string.  (Non-ASCII decimal digits and
the sign of `-0.0` are outside the model; neither is observable in this
program.) -/
def float_of_string (s : String) : Option PyFloat := do
  let cs := pyStrip s.toList
  let p1 := parseSign cs
  let low := p1.2.map Char.toLower
  if low = "inf".toList ∨ low = "infinity".toList then
    return .inf (decide (p1.1 < 0))
  if low = "nan".toList then
    return .nan
  let ir := p1.2.takeWhile isDigitOrUS
  let cs2 := p1.2.dropWhile isDigitOrUS
  guard (ir.isEmpty || validRun ir)
  let fpart : List Char × List Char :=
    match cs2 with
    | '.' :: rest => (rest.takeWhile isDigitOrUS, rest.dropWhile isDigitOrUS)
    | _ => ([], cs2)
  guard (fpart.1.isEmpty || validRun fpart.1)
  let intDigits := stripUS ir
  let fracDigits := stripUS fpart.1
  guard (!intDigits.isEmpty || !fracDigits.isEmpty)
  let expVal : Int ←
    match fpart.2 with
    | [] => some 0
    | c :: rest =>
      if c = 'e' ∨ c = 'E' then
        let p2 := parseSign rest
        let er := p2.2.takeWhile isDigitOrUS
        let r3 := p2.2.dropWhile isDigitOrUS
        if validRun er ∧ r3 = [] then
          some (p2.1 * (digitsToNat (stripUS er) : Int))
        else none
      else none
  let mantDigits := intDigits ++ fracDigits
  return doubleOfDec p1.1 (digitsToNat mantDigits) mantDigits.length
    (expVal - (fracDigits.length : Int))

/-- Binary64 multiplication of a float by `10 ^ k`, for `k` small enough
that `10 ^ k` is itself exactly representable (here `k = 6`): the exact
product, re-rounded to the nearest binary64 value. -/
def mulPow10 (f : PyFloat) (k : Nat) : PyFloat :=
  match f with
  | .nan => .nan
  | .inf b => .inf b
  | .finite m e =>
    if m = 0 then .finite 0 0
    else
      let a := m.natAbs * 10 ^ k
      let r := if 0 ≤ e then roundPos (a * 2 ^ e.toNat) 1
        else roundPos a (2 ^ (-e).toNat)
      if m < 0 then r.neg else r

/-- Python `int(...)` on a float: truncation toward zero for finite
values, `OverflowError` on infinities, `ValueError` on NaN. -/
def pyIntFromFloat : PyFloat → Except String Int
  | .finite m e =>
    .ok (if 0 ≤ e then m * ((2 ^ e.toNat : Nat) : Int)
      else m.tdiv ((2 ^ (-e).toNat : Nat) : Int))
  | .inf _ => .error "OverflowError: cannot convert float infinity to integer"
  | .nan => .error "ValueError: cannot convert float NaN to integer"

/-- `payment_amount` from `src/datasource.py`: `int(float(amount) * 10 ** 6)`.
Only `float()` sits inside the `try`, so its `ValueError` becomes the
logged "Invalid amount" exit, while the `OverflowError`/`ValueError`
raised by `int()` on `inf`/`nan` escapes uncaught — a different
termination. -/
def payment_amount (amount : String) : Except String Int :=
  match float_of_string amount with
  | none => .error ("Invalid amount: [bold]" ++ amount ++ "[/bold]")
  | some f => pyIntFromFloat (mulPow10 f USDC_DECIMALS)

example : payment_amount "1.5" = .ok 1500000 := by decide
example : payment_amount "abc" = .error "Invalid amount: [bold]abc[/bold]" := by decide
example : payment_amount "-1.5" = .ok (-1500000) := by decide
example : payment_amount "0.0000019" = .ok 1 := by decide
example : payment_amount "0.99999999999999995" = .ok 1000000 := by decide
example : payment_amount "1_000" = .ok 1000000000 := by decide
example : payment_amount " 2.5 " = .ok 2500000 := by decide
example : payment_amount "8.62" = .ok 8620000 := by decide
example : payment_amount "4.185" = .ok 4184999 := by decide
example : payment_amount "0.1" = .ok 100000 := by decide
example : payment_amount "123.456789" = .ok 123456789 := by decide
example : payment_amount "1e-7" = .ok 0 := by decide
example : payment_amount "9007199254.740993" = .ok 9007199254740994 := by decide
example : payment_amount "0.000002675" = .ok 2 := by decide
example : payment_amount "1." = .ok 1000000 := by decide
example : payment_amount ".5" = .ok 500000 := by decide
example : payment_amount "inf"
  = .error "OverflowError: cannot convert float infinity to integer" := by decide
example : payment_amount "-inf"
  = .error "OverflowError: cannot convert float infinity to integer" := by decide
example : payment_amount "nan"
  = .error "ValueError: cannot convert float NaN to integer" := by decide
example : payment_amount "1e400"
  = .error "OverflowError: cannot convert float infinity to integer" := by decide
example : payment_amount "1__0" = .error "Invalid amount: [bold]1__0[/bold]" := by decide
example : payment_amount "1_.5" = .error "Invalid amount: [bold]1_.5[/bold]" := by decide
example : payment_amount "." = .error "Invalid amount: [bold].[/bold]" := by decide
example : payment_amount "infx" = .error "Invalid amount: [bold]infx[/bold]" := by decide
example : find_rise_id "hi" = .error "RiseId not found in [bold]hi[/bold]" := by decide

/-- A row of the payments CSV file (`CSVRow` in `src/datasource.py`). -/
structure CSVRow where
  outgoing_amount : String
  outgoing_token : String
  Description : String
deriving DecidableEq

/-- `_sanity_checks` from `src/datasource.py`: the declared token must be
the single supported token `DAI`. -/
def sanity_checks (row : CSVRow) : Except String Unit :=
  if row.outgoing_token = "DAI" then .ok ()
  else .error ("Unsupported token: [bold]" ++ row.outgoing_token ++ "[/bold]")

/-- The body of the `payments_from_csv` loop for one row: sanity checks,
then `Payment(amount=payment_amount(...), recipient=find_rise_id(...))`
(arguments evaluated in that order), with `e` the entropy drawn by the
`Payment` constructor. -/
def paymentFromRow (row : CSVRow) (e : Nat) : Except String Payment :=
  match sanity_checks row with
  | .error msg => .error msg
  | .ok _ =>
    match payment_amount row.outgoing_amount with
    | .error msg => .error msg
    | .ok amt =>
      match find_rise_id row.Description with
      | .error msg => .error msg
      | .ok rid => .ok (mkPayment rid amt none e)

/-- The `payments_from_csv` loop over the parsed rows; `rng i` is the
entropy drawn for the payment built from row `i`. -/
def paymentsGo (rng : Nat → Nat) : Nat → List CSVRow → Except String (List Payment)
  | _, [] => .ok []
  | i, row :: rest =>
    match paymentFromRow row (rng i) with
    | .error msg => .error msg
    | .ok p =>
      match paymentsGo rng (i + 1) rest with
      | .error msg => .error msg
      | .ok ps => .ok (p :: ps)

/-- `payments_from_csv` from `src/datasource.py`, over the already-parsed
CSV rows (the `csv.DictReader` file decoding is taken as given). -/
def payments_from_csv (rows : List CSVRow) (rng : Nat → Nat) :
    Except String (List Payment) :=
  paymentsGo rng 0 rows

/-- The `Team` entity of `src/rise_client.py`. -/
structure Team where
  id : String
  name : String
  riseId : String
deriving DecidableEq

/-- The `TeamMember` entity of `src/rise_client.py`. -/
structure TeamMember where
  id : String
  alias_ : String
  firstname : String
  middlename : String
  lastname : String
  riseId : String
deriving DecidableEq

/-- `RiseAPI.payees`: the member lists of all fetched teams accumulated
with `payees.extend(...)` in fetch order.  `members` stands for
`get_team_members`, keyed by team id. -/
def payees (teams : List Team) (members : String → List TeamMember) :
    List TeamMember :=
  teams.foldl (fun acc team => acc ++ members team.id) []

/-- `RiseAPI.allowed_recipients`: the `riseId` of every payee. -/
def allowed_recipients (teams : List Team) (members : String → List TeamMember) :
    List String :=
  (payees teams members).map TeamMember.riseId

/-- `RiseAPI.get_payee`: first payee with the given rise id, or the
`ValueError` raised when none matches. -/
def get_payee (ps : List TeamMember) (rid : String) : Except String TeamMember :=
  match ps.find? (fun p => p.riseId == rid) with
  | some p => .ok p
  | none => .error ("Payee with rise id " ++ rid ++ " not found")

/-- The per-payment loop of `src/main.py`: recipient must be an allowed
recipient (else `RuntimeError`), the payee is resolved, and the operator
confirms (declining exits).  `confirm i` is the operator's answer for
payment `i`. -/
def mainLoop (allowed : List String) (ps : List TeamMember)
    (confirm : Nat → Bool) : Nat → List Payment → Except String Unit
  | _, [] => .ok ()
  | i, p :: rest =>
    if p.recipient ∈ allowed then
      match get_payee ps p.recipient with
      | .error msg => .error msg
      | .ok _ =>
        if confirm i then mainLoop allowed ps confirm (i + 1) rest
        else .error "Payment cancelled by user"
    else .error ("Recipient " ++ p.recipient ++ " is not a payee")

/-- The orchestration of `src/main.py` after ingestion: the per-payment
loop, the final cumulative confirmation, then `api.batch_payment`.  The
second component lists the payment batches for which the batch-pay HTTP
exchange was invoked. -/
def orchestrate (payments : List Payment) (teams : List Team)
    (members : String → List TeamMember) (confirm : Nat → Bool)
    (finalConfirm : Bool) : Except String Unit × List (List Payment) :=
  match mainLoop (allowed_recipients teams members) (payees teams members)
      confirm 0 payments with
  | .error msg => (.error msg, [])
  | .ok _ =>
    if finalConfirm then (.ok (), [payments])
    else (.error "Payment cancelled by user", [])

/-- JSON values, for the bodies of the batch-pay HTTP exchange. -/
inductive Json where
  | null : Json
  | str : String → Json
  | num : Int → Json
  | obj : List (String × Json) → Json
  | arr : List Json → Json

/-- Dictionary lookup (`d[k]` / `KeyError` discipline modelled as `Option`). -/
def jsonGet (j : Json) (k : String) : Option Json :=
  match j with
  | .obj fields => fields.lookup k
  | _ => none

/-- `dataclasses.asdict` on a `Payment`. -/
def paymentJson (p : Payment) : Json :=
  .obj [("recipient", .str p.recipient), ("amount", .num p.amount),
    ("salt", .num (p.salt : Int))]

/-- `sum(p.amount for p in payments)`. -/
def total_amount (payments : List Payment) : Int :=
  payments.foldl (fun acc p => acc + p.amount) 0

/-- The JSON body sent by `_get_batch_payment_message` with the `PUT`. -/
def putBodyJson (wallet rise_id : String) (payments : List Payment) : Json :=
  .obj [("wallet", .str wallet), ("rise_id", .str rise_id),
    ("total_amount", .str (toString (total_amount payments))),
    ("payments", .arr (payments.map paymentJson))]

/-- The record of one run of `RiseAPI.batch_payment`: the `PUT` body, the
object passed to `signer.sign_typed`, and the `POST` body. -/
structure BatchTrace where
  putBody : Json
  signedObject : Json
  postBody : Json

/-- `RiseAPI.batch_payment` from `src/rise_client.py`.  `putResponse` is
the `data` object of the `PUT /payments/batch-pay` response (the HTTP
transport is external); `signTyped` is the signer.  The code signs the
whole response object `request`, then POSTs with `request["message"]`
under the `request` key; a response without a `message` key would raise
`KeyError`. -/
def batch_payment (wallet rise_id : String) (payments : List Payment)
    (putResponse : Json) (signTyped : Json → String) :
    Except String BatchTrace :=
  let request := putResponse
  let signature := signTyped request
  match jsonGet request "message" with
  | none => .error "KeyError: message"
  | some msg =>
    .ok { putBody := putBodyJson wallet rise_id payments
          signedObject := request
          postBody := .obj [("wallet", .str wallet), ("rise_id", .str rise_id),
            ("total_amount", .str (toString (total_amount payments))),
            ("payments", .arr (payments.map paymentJson)),
            ("request", msg), ("signature", .str signature)] }

/-! ### Scanner lemmas -/

/-- Every match reported by the scan starts at or after the scan position
and is the 42-character slice of the text at its reported offset. -/
theorem riseScan_mem (fuel : Nat) :
    ∀ i cs, ∀ q ∈ riseScan fuel i cs,
      ∃ k, q.1 = i + k ∧ q.2 = (cs.drop k).take 42 := by
  induction fuel with
  | zero => intro i cs q hq; simp [riseScan] at hq
  | succ fuel ih =>
    intro i cs q hq
    cases cs with
    | nil => simp [riseScan] at hq
    | cons c cs =>
      rw [riseScan] at hq
      split at hq
      · rcases List.mem_cons.mp hq with rfl | hq
        · exact ⟨0, by omega, rfl⟩
        · obtain ⟨k, hk1, hk2⟩ := ih (i + 42) (cs.drop 41) q hq
          refine ⟨k + 42, by omega, ?_⟩
          rw [hk2, List.drop_drop, Nat.add_comm 41 k]
          rfl
      · obtain ⟨k, hk1, hk2⟩ := ih (i + 1) cs q hq
        exact ⟨k + 1, by omega, by rw [hk2]; rfl⟩

/-- C4: `find_rise_id` returns a recipient exactly when the text contains
exactly one match of the `0x`-plus-40-hex-digits pattern; zero matches and
more than one match each produce a fatal error, and the two error messages
are distinct. -/
theorem find_rise_id_cases (text : String) :
    ((riseMatches text.toList).length = 1 ↔ ∃ r, find_rise_id text = .ok r)
    ∧ (riseMatches text.toList = [] →
        find_rise_id text = .error ("RiseId not found in [bold]" ++ text ++ "[/bold]"))
    ∧ (1 < (riseMatches text.toList).length →
        find_rise_id text = .error ("Multiple RiseIds found in [bold]" ++ text ++ "[/bold]"))
    ∧ ("RiseId not found in [bold]" ++ text ++ "[/bold]")
      ≠ ("Multiple RiseIds found in [bold]" ++ text ++ "[/bold]") := by
  have hne : ("RiseId not found in [bold]" ++ text ++ "[/bold]")
      ≠ ("Multiple RiseIds found in [bold]" ++ text ++ "[/bold]") := by
    intro he
    have h1 := congrArg String.length he
    have e1 : ("RiseId not found in [bold]" : String).length = 26 := rfl
    have e2 : ("Multiple RiseIds found in [bold]" : String).length = 32 := rfl
    simp only [String.length_append, e1, e2] at h1
    omega
  have key : ∀ ms, riseMatches text.toList = ms →
      find_rise_id text = (match ms with
        | [] => .error ("RiseId not found in [bold]" ++ text ++ "[/bold]")
        | [m] => .ok m.asString
        | _ :: _ :: _ =>
          .error ("Multiple RiseIds found in [bold]" ++ text ++ "[/bold]")) := by
    intro ms hms
    unfold find_rise_id
    rw [hms]
  rcases h : riseMatches text.toList with _ | ⟨m, _ | ⟨m2, tl⟩⟩
  · have hfr : find_rise_id text
        = .error ("RiseId not found in [bold]" ++ text ++ "[/bold]") := key [] h
    refine ⟨⟨?_, ?_⟩, fun _ => hfr, ?_, hne⟩
    · intro h1; simp at h1
    · rintro ⟨r, hr⟩; rw [hfr] at hr; exact Except.noConfusion hr
    · intro h1; simp at h1
  · have hfr : find_rise_id text = .ok m.asString := key [m] h
    refine ⟨⟨fun _ => ⟨m.asString, hfr⟩, fun _ => rfl⟩, ?_, ?_, hne⟩
    · intro h1; simp at h1
    · intro h1; simp at h1
  · have hfr : find_rise_id text
        = .error ("Multiple RiseIds found in [bold]" ++ text ++ "[/bold]") :=
      key (m :: m2 :: tl) h
    refine ⟨⟨?_, ?_⟩, ?_, fun _ => hfr, hne⟩
    · intro h1; simp at h1
    · rintro ⟨r, hr⟩; rw [hfr] at hr; exact Except.noConfusion hr
    · intro h1; simp at h1

/-- Witness for `find_rise_id_cases`, at a zero-match text, a one-match
text and a two-match text. -/
theorem find_rise_id_cases_witness :
    find_rise_id "no address" = .error "RiseId not found in [bold]no address[/bold]"
    ∧ (∃ r, find_rise_id "pay 0x0123456789abcdef0123456789ABCDEF01234567" = .ok r)
    ∧ find_rise_id
        "0x0123456789abcdef0123456789ABCDEF01234567 0x0123456789abcdef0123456789ABCDEF01234567"
      = .error ("Multiple RiseIds found in [bold]"
          ++ "0x0123456789abcdef0123456789ABCDEF01234567 0x0123456789abcdef0123456789ABCDEF01234567"
          ++ "[/bold]") :=
  ⟨(find_rise_id_cases "no address").2.1 (by decide),
    (find_rise_id_cases "pay 0x0123456789abcdef0123456789ABCDEF01234567").1.mp (by decide),
    (find_rise_id_cases
      "0x0123456789abcdef0123456789ABCDEF01234567 0x0123456789abcdef0123456789ABCDEF01234567").2.2.1
      (by decide)⟩

/-- C10: the address pattern has no word-boundary check.  If the text
contains `0x` followed by more than 40 hex digits and the scan finds
exactly one match, namely at that run, then `find_rise_id` succeeds and
returns the `0x` prefix plus the first 40 digits of the run. -/
theorem find_rise_id_overlong (pre digits post : List Char) (m : List Char)
    (_hhex : digits.all isHexDigitChar = true) (hlen : 40 < digits.length)
    (hone : riseMatchesP (pre ++ '0' :: 'x' :: (digits ++ post)) = [(pre.length, m)]) :
    find_rise_id (pre ++ '0' :: 'x' :: (digits ++ post)).asString
      = .ok ('0' :: 'x' :: digits.take 40).asString := by
  have hmem : (pre.length, m) ∈ riseMatchesP (pre ++ '0' :: 'x' :: (digits ++ post)) := by
    rw [hone]; exact List.mem_singleton.mpr rfl
  obtain ⟨k, hk1, hk2⟩ := riseScan_mem _ 0 _ _ hmem
  have hk : k = pre.length := by omega
  subst hk
  rw [List.drop_left] at hk2
  have hk2m : m = ('0' :: 'x' :: (digits ++ post)).take 42 := hk2
  have hm : m = '0' :: 'x' :: digits.take 40 := by
    rw [hk2m]
    show '0' :: 'x' :: (digits ++ post).take 40 = _
    rw [List.take_append_of_le_length (by omega)]
  have htl : ((pre ++ '0' :: 'x' :: (digits ++ post)).asString).toList
      = pre ++ '0' :: 'x' :: (digits ++ post) := List.toList_asString _
  rw [find_rise_id, htl]
  rw [riseMatches, hone]
  simp [hm]

/-- Witness for `find_rise_id_overlong`: a run of 41 hex digits. -/
theorem find_rise_id_overlong_witness :
    find_rise_id ("to ".toList ++ '0' :: 'x'
        :: ("0123456789abcdef0123456789ABCDEF012345678".toList ++ " ok".toList)).asString
      = .ok ('0' :: 'x' :: "0123456789abcdef0123456789ABCDEF012345678".toList.take 40).asString :=
  find_rise_id_overlong "to ".toList "0123456789abcdef0123456789ABCDEF012345678".toList
    " ok".toList
    ('0' :: 'x' :: "0123456789abcdef0123456789ABCDEF012345678".toList.take 40)
    (by decide) (by decide) (by decide)

/-! ### Amount lemmas -/

/-- The InvalidAmount message starts with `I`, whatever the field was. -/
theorem invalid_msg_head (s : String) :
    ("Invalid amount: [bold]" ++ s ++ "[/bold]").toList.head? = some 'I' := rfl

/-- `pyIntFromFloat` can only fail with the two conversion messages. -/
theorem pyIntFromFloat_error (g : PyFloat) (msg : String)
    (h : pyIntFromFloat g = .error msg) :
    msg = "OverflowError: cannot convert float infinity to integer"
    ∨ msg = "ValueError: cannot convert float NaN to integer" := by
  cases g with
  | finite m e => exact Except.noConfusion h
  | inf b => exact Or.inl (Except.error.inj h).symm
  | nan => exact Or.inr (Except.error.inj h).symm

/-- C5: `payment_amount` parses the string with `float`, multiplies by
`10 ^ 6` in double precision and truncates toward zero; it fails with the
InvalidAmount condition exactly when the string is not numeric (rejected
by `float`) — the numeric strings `inf`/`nan` instead terminate through
the uncaught conversion errors of `int()`; `payment_amount "1.5"` returns
`1500000` and `payment_amount "abc"` fails with InvalidAmount. -/
theorem payment_amount_spec :
    (∀ s : String,
      ((payment_amount s = .error ("Invalid amount: [bold]" ++ s ++ "[/bold]"))
          ↔ float_of_string s = none)
      ∧ ∀ f, float_of_string s = some f →
          payment_amount s = pyIntFromFloat (mulPow10 f USDC_DECIMALS))
    ∧ payment_amount "1.5" = .ok 1500000
    ∧ payment_amount "abc" = .error "Invalid amount: [bold]abc[/bold]"
    ∧ payment_amount "inf"
      = .error "OverflowError: cannot convert float infinity to integer"
    ∧ payment_amount "nan"
      = .error "ValueError: cannot convert float NaN to integer" := by
  refine ⟨fun s => ?_, by decide, by decide, by decide, by decide⟩
  have key : ∀ o, float_of_string s = o → payment_amount s = (match o with
      | none => .error ("Invalid amount: [bold]" ++ s ++ "[/bold]")
      | some f => pyIntFromFloat (mulPow10 f USDC_DECIMALS)) := by
    intro o ho
    unfold payment_amount
    rw [ho]
  cases h : float_of_string s with
  | none =>
    have hp : payment_amount s
        = .error ("Invalid amount: [bold]" ++ s ++ "[/bold]") := key none h
    exact ⟨⟨fun _ => rfl, fun _ => hp⟩, fun f hf => Option.noConfusion hf⟩
  | some f =>
    have hp : payment_amount s
        = pyIntFromFloat (mulPow10 f USDC_DECIMALS) := key (some f) h
    refine ⟨⟨fun he => ?_, fun hn => Option.noConfusion hn⟩, fun f2 hf2 => ?_⟩
    · exfalso
      have he2 : pyIntFromFloat (mulPow10 f USDC_DECIMALS)
          = .error ("Invalid amount: [bold]" ++ s ++ "[/bold]") := by
        rw [← hp]
        exact he
      cases hres : pyIntFromFloat (mulPow10 f USDC_DECIMALS) with
      | ok n => rw [hres] at he2; exact Except.noConfusion he2
      | error msg =>
        rw [hres] at he2
        have hm2 : msg = "Invalid amount: [bold]" ++ s ++ "[/bold]" :=
          Except.error.inj he2
        rcases pyIntFromFloat_error _ _ hres with hmsg | hmsg
        · rw [hm2] at hmsg
          have hh : ("Invalid amount: [bold]" ++ s ++ "[/bold]").toList.head?
              = ("OverflowError: cannot convert float infinity to integer" : String).toList.head? :=
            congrArg (fun t : String => t.toList.head?) hmsg
          rw [invalid_msg_head] at hh
          exact absurd hh (by decide)
        · rw [hm2] at hmsg
          have hh : ("Invalid amount: [bold]" ++ s ++ "[/bold]").toList.head?
              = ("ValueError: cannot convert float NaN to integer" : String).toList.head? :=
            congrArg (fun t : String => t.toList.head?) hmsg
          rw [invalid_msg_head] at hh
          exact absurd hh (by decide)
    · obtain rfl : f = f2 := Option.some.inj hf2
      exact hp

/-- Witness for `payment_amount_spec`, at the numeric input `"2.5"`
(whose nearest double is `5629499534213120 * 2 ^ (-51)`). -/
theorem payment_amount_spec_witness :
    payment_amount "2.5"
      = pyIntFromFloat (mulPow10 (.finite 5629499534213120 (-51)) USDC_DECIMALS) :=
  (payment_amount_spec.1 "2.5").2 (.finite 5629499534213120 (-51)) (by decide)

/-! ### Ingestion lemmas -/

/-- A row whose token is not `DAI` makes its row step fail. -/
theorem paymentFromRow_bad_token (row : CSVRow) (e : Nat)
    (h : row.outgoing_token ≠ "DAI") :
    paymentFromRow row e
      = .error ("Unsupported token: [bold]" ++ row.outgoing_token ++ "[/bold]") := by
  unfold paymentFromRow sanity_checks
  rw [if_neg h]

/-- Anatomy of a successful row step: the token is `DAI`, the amount
parses to a float whose scaled truncation succeeds, the description has
exactly one match, and the payment is built from them. -/
theorem paymentFromRow_ok (row : CSVRow) (e : Nat) (p : Payment)
    (h : paymentFromRow row e = .ok p) :
    row.outgoing_token = "DAI"
    ∧ ∃ f, float_of_string row.outgoing_amount = some f
        ∧ ∃ n, pyIntFromFloat (mulPow10 f USDC_DECIMALS) = .ok n
          ∧ ∃ m, riseMatches row.Description.toList = [m]
            ∧ p = mkPayment m.asString n none e := by
  unfold paymentFromRow at h
  split at h
  · exact Except.noConfusion h
  case _ u hs =>
  refine ⟨?_, ?_⟩
  · unfold sanity_checks at hs
    by_cases ht : row.outgoing_token = "DAI"
    · exact ht
    · rw [if_neg ht] at hs
      exact Except.noConfusion hs
  · split at h
    · exact Except.noConfusion h
    case _ amt ha =>
    split at h
    · exact Except.noConfusion h
    case _ rid hr =>
    obtain rfl : mkPayment rid amt none e = p := Except.ok.inj h
    unfold payment_amount at ha
    split at ha
    · exact Except.noConfusion ha
    case _ f hf =>
    unfold find_rise_id at hr
    split at hr
    case h_1 => exact Except.noConfusion hr
    case h_3 => exact Except.noConfusion hr
    case h_2 m hm =>
      obtain rfl : m.asString = rid := Except.ok.inj hr
      exact ⟨f, hf, amt, ha, m, hm, rfl⟩

/-- The `payments_from_csv` loop returns one payment per row, each built
by the row step with its own entropy draw. -/
theorem paymentsGo_ok (rng : Nat → Nat) :
    ∀ rows i ps, paymentsGo rng i rows = .ok ps →
      ps.length = rows.length
      ∧ ∀ k : Nat, ∀ row, rows[k]? = some row →
          ∃ p, ps[k]? = some p ∧ paymentFromRow row (rng (i + k)) = .ok p := by
  intro rows
  induction rows with
  | nil =>
    intro i ps h
    obtain rfl : ([] : List Payment) = ps := Except.ok.inj h
    exact ⟨rfl, fun k row hk => by simp at hk⟩
  | cons row rest ih =>
    intro i ps h
    unfold paymentsGo at h
    split at h
    · exact Except.noConfusion h
    case _ p hp =>
    split at h
    · exact Except.noConfusion h
    case _ ps' hps =>
    obtain rfl : p :: ps' = ps := Except.ok.inj h
    obtain ⟨hlen, hidx⟩ := ih (i + 1) ps' hps
    refine ⟨by simp [hlen], fun k row2 hk => ?_⟩
    cases k with
    | zero =>
      obtain rfl : row = row2 := Option.some.inj (by simpa using hk)
      exact ⟨p, by simp, by simpa using hp⟩
    | succ k =>
      obtain ⟨p2, hp2, hrow2⟩ := hidx k row2 (by simpa using hk)
      refine ⟨p2, by simpa using hp2, ?_⟩
      have : i + 1 + k = i + (k + 1) := by omega
      rwa [this] at hrow2

/-- C6: a file containing a row with an unsupported token never yields a
payments list — ingestion aborts with no partial results. -/
theorem payments_from_csv_bad_token (rows : List CSVRow) (rng : Nat → Nat)
    (h : ∃ row ∈ rows, row.outgoing_token ≠ "DAI") :
    ∀ ps, payments_from_csv rows rng ≠ .ok ps := by
  intro ps hok
  obtain ⟨row, hmem, hbad⟩ := h
  obtain ⟨k, hk⟩ := List.mem_iff_getElem?.mp hmem
  obtain ⟨_, hidx⟩ := paymentsGo_ok rng rows 0 ps hok
  obtain ⟨p, _, hp⟩ := hidx k row hk
  rw [paymentFromRow_bad_token row _ hbad] at hp
  exact Except.noConfusion hp

/-- Witness for `payments_from_csv_bad_token`: a USDC row aborts the run. -/
theorem payments_from_csv_bad_token_witness :
    payments_from_csv [⟨"1.5", "USDC", "x"⟩] (fun _ => 0) ≠ .ok [] :=
  payments_from_csv_bad_token [⟨"1.5", "USDC", "x"⟩] (fun _ => 0)
    ⟨⟨"1.5", "USDC", "x"⟩, by simp, by decide⟩ []

/-- C2 (amended): a successfully ingested row with a single address match
and a numeric amount yields the payment whose recipient is the matched
address verbatim and whose amount is `int(float(amount) * 10 ** 6)` in
binary64 arithmetic: the field parsed to the nearest double, multiplied
by `10 ^ 6` as doubles, and truncated toward zero. -/
theorem ingestor_row_spec (rows : List CSVRow) (rng : Nat → Nat)
    (ps : List Payment) (i : Nat) (row : CSVRow) (f : PyFloat) (n : Int)
    (m : List Char)
    (hok : payments_from_csv rows rng = .ok ps)
    (hrow : rows[i]? = some row)
    (hm : riseMatches row.Description.toList = [m])
    (hf : float_of_string row.outgoing_amount = some f)
    (hn : pyIntFromFloat (mulPow10 f USDC_DECIMALS) = .ok n) :
    ∃ p, ps[i]? = some p ∧ p.recipient = m.asString ∧ p.amount = n := by
  obtain ⟨_, hidx⟩ := paymentsGo_ok rng rows 0 ps hok
  obtain ⟨p, hp, hrowp⟩ := hidx i row hrow
  obtain ⟨-, f2, hf2, n2, hn2, m2, hm2, rfl⟩ := paymentFromRow_ok row _ p hrowp
  obtain rfl : m2 = m := by
    rw [hm2] at hm
    exact (List.cons.inj hm).1
  obtain rfl : f2 = f := by
    rw [hf2] at hf
    exact Option.some.inj hf
  obtain rfl : n2 = n := by
    rw [hn2] at hn
    exact Except.ok.inj hn
  exact ⟨_, hp, rfl, rfl⟩

/-- Witness for `ingestor_row_spec`: the row `2.5,DAI,"to 0x…"` produces
the payment with the matched recipient and amount `2500000`. -/
theorem ingestor_row_spec_witness :
    (Payment.mk "0x0123456789abcdef0123456789ABCDEF01234567" 2500000 0).recipient
      = "0x0123456789abcdef0123456789ABCDEF01234567".toList.asString := by
  obtain ⟨p, hp, hrec, hamt⟩ := ingestor_row_spec
    [⟨"2.5", "DAI", "to 0x0123456789abcdef0123456789ABCDEF01234567"⟩]
    (fun _ => 0)
    [⟨"0x0123456789abcdef0123456789ABCDEF01234567", 2500000, 0⟩]
    0 ⟨"2.5", "DAI", "to 0x0123456789abcdef0123456789ABCDEF01234567"⟩
    (.finite 5629499534213120 (-51)) 2500000
    "0x0123456789abcdef0123456789ABCDEF01234567".toList
    (by decide) (by decide) (by decide) (by decide) (by decide)
  have hpv : p = ⟨"0x0123456789abcdef0123456789ABCDEF01234567", 2500000, 0⟩ := by
    have := hp
    simp at this
    exact this.symm
  rw [← hpv]
  exact hrec

/-- C2 (counterexample to the rounding clause): on the row
`0.0000019,DAI,…` the code produces amount `1` (truncation), while
`round(decimal · 10 ^ 6) = round 1.9 = 2`. -/
theorem ingestor_round_counterexample :
    payments_from_csv
        [⟨"0.0000019", "DAI", "to 0x0123456789abcdef0123456789ABCDEF01234567"⟩]
        (fun _ => 0)
      = .ok [⟨"0x0123456789abcdef0123456789ABCDEF01234567", 1, 0⟩]
    ∧ round (((19 : Rat) / 10 ^ 7) * 10 ^ 6) = 2
    ∧ (1 : Int) ≠ 2 := by
  refine ⟨by decide, ?_, by decide⟩
  have hv : ((19 : Rat) / 10 ^ 7) * 10 ^ 6 = 19 / 10 := by norm_num
  rw [hv, round_eq]
  norm_num

/-- C3 (counterexample): a negative amount row ingests successfully into a
negative payment amount. -/
theorem ingestor_negative_counterexample :
    payments_from_csv
        [⟨"-1.5", "DAI", "to 0x0123456789abcdef0123456789ABCDEF01234567"⟩]
        (fun _ => 0)
      = .ok [⟨"0x0123456789abcdef0123456789ABCDEF01234567", -1500000, 0⟩]
    ∧ (-1500000 : Int) < 0 :=
  ⟨by decide, by decide⟩

/-- A finite classification has a nonnegative significand. -/
theorem mkFloat_finite_nonneg (mn : Nat) (q : Int) (m e : Int)
    (h : mkFloat mn q = .finite m e) : 0 ≤ m := by
  unfold mkFloat at h
  split at h
  · exact PyFloat.noConfusion h
  · injection h with h1 h2
    rw [← h1]
    exact Int.natCast_nonneg _

/-- A finite result of the rounder has a nonnegative significand. -/
theorem roundPos_finite_nonneg (a d : Nat) (m : Int) (e : Int)
    (h : roundPos a d = .finite m e) : 0 ≤ m := by
  simp only [roundPos] at h
  exact mkFloat_finite_nonneg _ _ _ _ h

/-- Scaling and truncating a nonnegative finite float is nonnegative. -/
theorem pyIntFromFloat_mul_nonneg (m e : Int) (k : Nat) (n : Int)
    (hm : 0 ≤ m)
    (h : pyIntFromFloat (mulPow10 (.finite m e) k) = .ok n) : 0 ≤ n := by
  simp only [mulPow10] at h
  by_cases hm0 : m = 0
  · rw [if_pos hm0] at h
    have h2 := Except.ok.inj h
    simp at h2
    omega
  · rw [if_neg hm0, if_neg (by omega : ¬ m < 0)] at h
    by_cases he : 0 ≤ e
    · rw [if_pos he] at h
      cases hr : roundPos (m.natAbs * 10 ^ k * 2 ^ e.toNat) 1 with
      | finite m2 e2 =>
        rw [hr] at h
        have hm2 := roundPos_finite_nonneg _ _ _ _ hr
        have h2 := Except.ok.inj h
        rw [← h2]
        split
        · exact mul_nonneg hm2 (Int.natCast_nonneg _)
        · exact Int.tdiv_nonneg hm2 (Int.natCast_nonneg _)
      | inf b => rw [hr] at h; exact Except.noConfusion h
      | nan => rw [hr] at h; exact Except.noConfusion h
    · rw [if_neg he] at h
      cases hr : roundPos (m.natAbs * 10 ^ k) (2 ^ (-e).toNat) with
      | finite m2 e2 =>
        rw [hr] at h
        have hm2 := roundPos_finite_nonneg _ _ _ _ hr
        have h2 := Except.ok.inj h
        rw [← h2]
        split
        · exact mul_nonneg hm2 (Int.natCast_nonneg _)
        · exact Int.tdiv_nonneg hm2 (Int.natCast_nonneg _)
      | inf b => rw [hr] at h; exact Except.noConfusion h
      | nan => rw [hr] at h; exact Except.noConfusion h

/-- C3 (amended): every payment produced by ingestion of rows whose amount
fields parse to nonnegative float values has a nonnegative amount. -/
theorem ingestor_amount_nonneg (rows : List CSVRow) (rng : Nat → Nat)
    (ps : List Payment)
    (hok : payments_from_csv rows rng = .ok ps)
    (hnn : ∀ row ∈ rows, ∀ m e : Int,
      float_of_string row.outgoing_amount = some (.finite m e) → 0 ≤ m) :
    ∀ p ∈ ps, 0 ≤ p.amount := by
  intro p hp
  obtain ⟨k, hk⟩ := List.mem_iff_getElem?.mp hp
  obtain ⟨hlen, hidx⟩ := paymentsGo_ok rng rows 0 ps hok
  have hklen : k < rows.length := by
    have : k < ps.length := (List.getElem?_eq_some.mp hk).1
    omega
  obtain ⟨row, hrow⟩ : ∃ row, rows[k]? = some row :=
    ⟨rows[k], by simp [hklen]⟩
  obtain ⟨p2, hp2, hrowp⟩ := hidx k row hrow
  have hpp : p2 = p := by rw [hk] at hp2; exact (Option.some.inj hp2).symm
  rw [hpp] at hrowp
  obtain ⟨-, f, hf, n, hn, m, hm, rfl⟩ := paymentFromRow_ok row _ p hrowp
  show 0 ≤ n
  cases f with
  | finite mf ef =>
    exact pyIntFromFloat_mul_nonneg mf ef _ n
      (hnn row (List.mem_iff_getElem?.mpr ⟨k, hrow⟩) mf ef hf) hn
  | inf b => exact Except.noConfusion hn
  | nan => exact Except.noConfusion hn

/-- Witness for `ingestor_amount_nonneg`, on the single row `2.5,DAI,…`. -/
theorem ingestor_amount_nonneg_witness : (0 : Int) ≤ 2500000 := by
  have h := ingestor_amount_nonneg
    [⟨"2.5", "DAI", "to 0x0123456789abcdef0123456789ABCDEF01234567"⟩]
    (fun _ => 0)
    [⟨"0x0123456789abcdef0123456789ABCDEF01234567", 2500000, 0⟩]
    (by decide) ?_
  · exact h ⟨"0x0123456789abcdef0123456789ABCDEF01234567", 2500000, 0⟩ (by simp)
  · intro row hrow mf ef hf
    obtain rfl : row = ⟨"2.5", "DAI", "to 0x0123456789abcdef0123456789ABCDEF01234567"⟩ := by
      simpa using hrow
    rw [show float_of_string "2.5" = some (.finite 5629499534213120 (-51)) from by decide] at hf
    have h2 := Option.some.inj hf
    injection h2 with h1 h2b
    omega

/-! ### Directory lemmas -/

/-- The `payees.extend` loop concatenates the member lists in fetch order. -/
theorem payees_eq (teams : List Team) (members : String → List TeamMember) :
    payees teams members = teams.flatMap fun t => members t.id := by
  unfold payees
  suffices h : ∀ acc, teams.foldl (fun acc team => acc ++ members team.id) acc
      = acc ++ teams.flatMap fun t => members t.id by
    simpa using h []
  induction teams with
  | nil => intro acc; simp
  | cons t ts ih => intro acc; simp [ih, List.append_assoc]

/-- C8: `allowed_recipients` is the `riseId` of every team member,
concatenated across teams in fetch order with duplicates preserved, and
list membership on it coincides with membership in the set of member
`riseId`s. -/
theorem allowed_recipients_spec (teams : List Team)
    (members : String → List TeamMember) :
    (allowed_recipients teams members
      = ((teams.flatMap fun t => members t.id).map TeamMember.riseId))
    ∧ ∀ r, r ∈ allowed_recipients teams members
        ↔ ∃ mem ∈ teams.flatMap fun t => members t.id, mem.riseId = r := by
  constructor
  · rw [allowed_recipients, payees_eq]
  · intro r
    rw [allowed_recipients, payees_eq]
    exact List.mem_map

/-- C9: the salt is set at construction, ignoring any supplied salt value,
to the 32-bit entropy draw; every ingested payment carries exactly its
construction draw, and serializing a payment reads the same salt back. -/
theorem payment_salt_spec :
    (∀ r a s₁ s₂ e, mkPayment r a s₁ e = mkPayment r a s₂ e)
    ∧ (∀ r a s e, (mkPayment r a s e).salt = getrandbits32 e
        ∧ (mkPayment r a s e).salt < 2 ^ 32)
    ∧ (∀ rows rng ps, payments_from_csv rows rng = .ok ps →
        ∀ k : Nat, ∀ row p, rows[k]? = some row → ps[k]? = some p →
          p.salt = getrandbits32 (rng k))
    ∧ (∀ p, jsonGet (paymentJson p) "salt" = some (.num (p.salt : Int))) := by
  refine ⟨fun r a s₁ s₂ e => rfl,
    fun r a s e => ⟨rfl, Nat.mod_lt _ (by norm_num)⟩, ?_, fun p => rfl⟩
  intro rows rng ps hok k row p hrow hp
  obtain ⟨-, hidx⟩ := paymentsGo_ok rng rows 0 ps hok
  obtain ⟨p2, hp2, hrowp⟩ := hidx k row hrow
  have hpp : p2 = p := by rw [hp] at hp2; exact (Option.some.inj hp2).symm
  rw [hpp] at hrowp
  obtain ⟨-, f, hf, n, hn, m, hm, rfl⟩ := paymentFromRow_ok row _ p hrowp
  simp [mkPayment, Nat.zero_add]

/-- Witness for `payment_salt_spec`: a run with entropy draw `7`. -/
theorem payment_salt_spec_witness :
    (Payment.mk "0x0123456789abcdef0123456789ABCDEF01234567" 2500000 7).salt
      = getrandbits32 7 :=
  payment_salt_spec.2.2.1
    [⟨"2.5", "DAI", "to 0x0123456789abcdef0123456789ABCDEF01234567"⟩]
    (fun _ => 7)
    [⟨"0x0123456789abcdef0123456789ABCDEF01234567", 2500000, 7⟩]
    (by decide) 0
    ⟨"2.5", "DAI", "to 0x0123456789abcdef0123456789ABCDEF01234567"⟩
    ⟨"0x0123456789abcdef0123456789ABCDEF01234567", 2500000, 7⟩
    (by decide) (by decide)

/-! ### Orchestrator lemmas -/

/-- The per-payment loop fails whenever some recipient is not allowed. -/
theorem mainLoop_err (allowed : List String) (ps : List TeamMember)
    (confirm : Nat → Bool) :
    ∀ pays : List Payment, ∀ i, (∃ p ∈ pays, p.recipient ∉ allowed) →
      ∃ msg, mainLoop allowed ps confirm i pays = .error msg := by
  intro pays
  induction pays with
  | nil => intro i h; simp at h
  | cons p rest ih =>
    intro i h
    unfold mainLoop
    by_cases hmem : p.recipient ∈ allowed
    · rw [if_pos hmem]
      cases hgp : get_payee ps p.recipient with
      | error msg => exact ⟨msg, rfl⟩
      | ok mem =>
        show ∃ msg, (if confirm i = true then mainLoop allowed ps confirm (i + 1) rest
          else .error "Payment cancelled by user") = .error msg
        by_cases hc : confirm i
        · rw [if_pos hc]
          apply ih
          rcases h with ⟨p2, hp2, hbad⟩
          rcases List.mem_cons.mp hp2 with rfl | hp2
          · exact absurd hmem hbad
          · exact ⟨p2, hp2, hbad⟩
        · rw [if_neg hc]
          exact ⟨_, rfl⟩
    · rw [if_neg hmem]
      exact ⟨_, rfl⟩

/-- C7: if any payment's recipient is not in `allowed_recipients`, the
orchestrator run fails and no batch-pay HTTP exchange is ever invoked. -/
theorem orchestrate_unknown_recipient (payments : List Payment)
    (teams : List Team) (members : String → List TeamMember)
    (confirm : Nat → Bool) (finalConfirm : Bool)
    (h : ∃ p ∈ payments, p.recipient ∉ allowed_recipients teams members) :
    (∃ msg, (orchestrate payments teams members confirm finalConfirm).1
        = .error msg)
    ∧ (orchestrate payments teams members confirm finalConfirm).2 = [] := by
  obtain ⟨msg, hm⟩ :=
    mainLoop_err (allowed_recipients teams members) (payees teams members)
      confirm payments 0 h
  unfold orchestrate
  rw [hm]
  exact ⟨⟨msg, rfl⟩, rfl⟩

/-- Witness for `orchestrate_unknown_recipient`: one payment, an empty
directory — no batch call is recorded. -/
theorem orchestrate_unknown_recipient_witness :
    (orchestrate [⟨"0xabc", 5, 0⟩] [] (fun _ => []) (fun _ => true) true).2 = [] :=
  (orchestrate_unknown_recipient [⟨"0xabc", 5, 0⟩] [] (fun _ => [])
    (fun _ => true) true (by decide)).2

/-! ### Batch payment lemmas -/

/-- C1 (amended): `batch_payment` signs the entire `data` object of the
`PUT` response (not just its `message` field), and the `POST` body carries
that response's `message` field under `request`, together with the wallet,
the organization id, the total amount, the payments and the signature. -/
theorem batch_payment_signs_envelope (wallet rise_id : String)
    (payments : List Payment) (putResponse : Json) (signTyped : Json → String)
    (msg : Json) (_hne : payments ≠ [])
    (hmsg : jsonGet putResponse "message" = some msg) :
    batch_payment wallet rise_id payments putResponse signTyped
      = .ok { putBody := putBodyJson wallet rise_id payments
              signedObject := putResponse
              postBody := .obj [("wallet", .str wallet), ("rise_id", .str rise_id),
                ("total_amount", .str (toString (total_amount payments))),
                ("payments", .arr (payments.map paymentJson)),
                ("request", msg),
                ("signature", .str (signTyped putResponse))] } := by
  simp only [batch_payment]
  rw [hmsg]

/-- Witness for `batch_payment_signs_envelope`. -/
theorem batch_payment_signs_envelope_witness :
    batch_payment "W" "Org" [Payment.mk "0xR" 5 0]
        (Json.obj [("message", Json.str "M")]) (fun _ => "SIG")
      = .ok { putBody := putBodyJson "W" "Org" [Payment.mk "0xR" 5 0]
              signedObject := Json.obj [("message", Json.str "M")]
              postBody := .obj [("wallet", .str "W"), ("rise_id", .str "Org"),
                ("total_amount", .str (toString (total_amount [Payment.mk "0xR" 5 0]))),
                ("payments", .arr ([Payment.mk "0xR" 5 0].map paymentJson)),
                ("request", Json.str "M"),
                ("signature", .str "SIG")] } :=
  batch_payment_signs_envelope "W" "Org" [Payment.mk "0xR" 5 0]
    (Json.obj [("message", Json.str "M")]) (fun _ => "SIG") (Json.str "M")
    (by decide) rfl

/-- A `PUT` response carrying a `message` field and an extra field. -/
def c1resp : Json := .obj [("message", .str "M"), ("raw", .str "R")]

/-- C1 (counterexample): with a response whose `data` object holds a
`message` field plus another field, the object handed to `sign_typed` is
the whole response object, which differs from the `message` object. -/
theorem batch_payment_sign_counterexample :
    batch_payment "W" "Org" [Payment.mk "0xR" 5 0] c1resp (fun _ => "SIG")
      = .ok { putBody := putBodyJson "W" "Org" [Payment.mk "0xR" 5 0]
              signedObject := c1resp
              postBody := .obj [("wallet", .str "W"), ("rise_id", .str "Org"),
                ("total_amount", .str (toString (total_amount [Payment.mk "0xR" 5 0]))),
                ("payments", .arr ([Payment.mk "0xR" 5 0].map paymentJson)),
                ("request", Json.str "M"),
                ("signature", .str "SIG")] }
    ∧ jsonGet c1resp "message" = some (Json.str "M")
    ∧ c1resp ≠ Json.str "M" :=
  ⟨rfl, rfl, fun h => Json.noConfusion h⟩

end RiseBatcher
